/-
Verification of the streda home-assistant integration.

The definitions below are a shallow embedding of the Python source:

  * custom_components/streda/coordinator.py : `apply_signalr_updates`
  * custom_components/streda/api.py         : `verify_token_validity`,
    `authenticate_b2c`, `authenticate_api`, `reauthenticate_if_needed`,
    `discover_system`
  * custom_components/streda/switch.py      : `RelayBin.__init__`,
    `RelayBin.is_on`

Python dicts with string keys and string values are modelled as association
lists (`StrMap`) with first-match lookup; JSON records are modelled as
structures whose optional fields are `Option` (a `none` stands for an absent
key, i.e. what `dict.get` returns as `None`).  Python truthiness of an
optional string (`if not tok`) is `strTruthy`: `none` and the empty string
are falsy.  Datetimes are modelled as integer seconds (UTC); `timedelta`
arithmetic becomes integer arithmetic.  Fallible paths (exceptions,
unbound-local errors) are modelled with `Except`.
-/
import Mathlib

/-- A Python `dict[str, str]` as an association list (keys unique in any
well-formed state; lookup takes the first match). -/
abbrev StrMap := List (String × String)

/-- `d.get(key)` on a string-valued dict. -/
def dictGet : StrMap → String → Option String
  | [], _ => none
  | (k, v) :: rest, key => if k = key then some v else dictGet rest key

/-- Python `old.update(new)` on dicts with unique keys: existing keys keep
their position and are overwritten when `new` has them, keys only in `new`
are appended in `new`'s order. -/
def dictUpdate (old new : StrMap) : StrMap :=
  old.map (fun p => (p.1, (dictGet new p.1).getD p.2)) ++
    new.filter (fun p => (dictGet old p.1).isNone)

/-- Python truthiness of an optional string: `None` and `""` are falsy. -/
def strTruthy : Option String → Bool
  | none => false
  | some s => s != ""

/-- A state record inside a device: a dict with a `type` key and a `data`
dict (the source always subscripts `state["data"]`, so `data` is taken as
present). -/
structure StateRec where
  type : Option String
  data : StrMap
  deriving DecidableEq

/-- A device record inside a SnapIn. -/
structure Device where
  deviceNumber : Option Int
  deviceType : Option String
  states : List StateRec
  deriving DecidableEq

/-- A SnapIn record of the device-state tree: it carries its own `states`
list (scanned by `RelayBin.__init__` for the firmware record) and a list of
devices (whose states the SignalR merge patches). -/
structure SnapIn where
  zigbeeId : Option String
  devices : List Device
  states : List StateRec
  deriving DecidableEq

/-- The payload `update["deviceState"]` of a SignalR update record.  A
`deviceState` that is absent or falsy (Python `None` or the empty dict) is
modelled as `none` at the use site, since the code treats all falsy values
identically (`if not (zigbee_id and device_state): continue`).
`data` defaults to the empty dict (`device_state.get("data", {})`). -/
structure DState where
  type : Option String
  data : StrMap
  deriving DecidableEq

/-- One SignalR update record. -/
structure Update where
  zigbeeId : Option String
  deviceNumber : Option Int
  deviceState : Option DState
  deriving DecidableEq

/-- `snapin.get("zigbeeId") == update["zigbeeId"]` — the index lookup key.
Only truthy zigbee ids are indexed in the source, and the update's id is
guarded truthy before lookup, so equality with a truthy key subsumes the
index-building filter. -/
def snapMatch (u : Update) (s : SnapIn) : Bool := s.zigbeeId == u.zigbeeId

/-- `d.get("deviceNumber") == device_number` in the `next(...)` search. -/
def devMatch (u : Update) (d : Device) : Bool := d.deviceNumber == u.deviceNumber

/-- `state.get("type") == state_type` in the state-merge loop. -/
def stMatch (ds : DState) (st : StateRec) : Bool := st.type == ds.type

/-- Update the last element satisfying `p` (the dict index built in source
order keeps the last snapin for a duplicated zigbeeId). -/
def updateLastSuchThat (p : α → Bool) (f : α → α) : List α → List α
  | [] => []
  | a :: as =>
    if as.any p then a :: updateLastSuchThat p f as
    else if p a then f a :: as else a :: as

/-- Update the first element satisfying `p` (Python `next(...)` / first
`break` in a scan). -/
def updateFirstSuchThat (p : α → Bool) (f : α → α) : List α → List α
  | [] => []
  | a :: as => if p a then f a :: as else a :: updateFirstSuchThat p f as

/-- Find the last element satisfying `p`. -/
def findLastSuchThat (p : α → Bool) : List α → Option α
  | [] => none
  | a :: as =>
    match findLastSuchThat p as with
    | some b => some b
    | none => if p a then some a else none

/-- `state["data"].update(state_data)` applied to the first state record
whose type matches; if none matches the loop falls through and the device
is unchanged (the "create" of the source comment does not exist). -/
def mergeState (ds : DState) (st : StateRec) : StateRec :=
  { st with data := dictUpdate st.data ds.data }

/-- Patch the matching state record inside a device. -/
def mergeDevice (ds : DState) (d : Device) : Device :=
  { d with states := updateFirstSuchThat (stMatch ds) (mergeState ds) d.states }

/-- Patch the first matching device inside a snapin. -/
def mergeSnap (u : Update) (ds : DState) (s : SnapIn) : SnapIn :=
  { s with devices := updateFirstSuchThat (devMatch u) (mergeDevice ds) s.devices }

/-- `DataCoordinator.apply_signalr_updates` (coordinator.py).  Faithful to
the source control flow: each update is skipped (`continue`) when its
zigbeeId or deviceState is falsy, when no snapin carries its zigbeeId, or
when the matched snapin has no device with its deviceNumber; but once an
update reaches the state-merge loop the function `return`s — the `return`
sits inside the `for update in updates` body, so the remaining updates of
the batch are dropped. -/
def applySignalrUpdates (tree : List SnapIn) : List Update → List SnapIn
  | [] => tree
  | u :: rest =>
    match u.deviceState with
    | none => applySignalrUpdates tree rest
    | some ds =>
      if strTruthy u.zigbeeId = false then applySignalrUpdates tree rest
      else
        match findLastSuchThat (snapMatch u) tree with
        | none => applySignalrUpdates tree rest
        | some sn =>
          if sn.devices.any (devMatch u) then
            updateLastSuchThat (snapMatch u) (mergeSnap u ds) tree
          else applySignalrUpdates tree rest

/-- State record of the C2 merge witness: PowerState OFF with an unrelated
`brightness` key that the merge must preserve. -/
def c2St : StateRec := ⟨some "PowerState", [("state", "OFF"), ("brightness", "5")]⟩

/-- Device of the C2 merge witness. -/
def c2Dev : Device := ⟨some 1, some "RelayBin", [c2St]⟩

/-- SnapIn of the C2 merge witness. -/
def c2Snap : SnapIn := ⟨some "Z1", [c2Dev], []⟩

/-- Update payload of the C2 merge witness: PowerState ON. -/
def c2DS : DState := ⟨some "PowerState", [("state", "ON")]⟩

/-- Update record of the C2 merge witness. -/
def c2Update : Update := ⟨some "Z1", some 1, some c2DS⟩

/-- A one-device snapin with a single PowerState record. -/
def powerSnap (z : String) (st : String) : SnapIn :=
  { zigbeeId := some z
    devices := [{ deviceNumber := some 1
                  deviceType := some "RelayBin"
                  states := [{ type := some "PowerState", data := [("state", st)] }] }]
    states := [] }

/-- A SignalR update switching device 1 of snapin `z` to power state `st`. -/
def powerUpdate (z : String) (st : String) : Update :=
  { zigbeeId := some z
    deviceNumber := some 1
    deviceState := some { type := some "PowerState", data := [("state", st)] } }

/-! ### Credential manager (api.py) -/

/-- The token-holding fields of `StredaApiClient`. -/
structure CredState where
  refreshToken : Option String
  idToken : Option String
  apiToken : Option String
  expiryDate : Option Int
  deriving DecidableEq

/-- `StredaApiClient.__init__`: only the refresh token is populated. -/
def initCredState (r : String) : CredState :=
  { refreshToken := some r, idToken := none, apiToken := none, expiryDate := none }

/-- `verify_token_validity`: false when no expiry is stored, otherwise true
iff now is strictly more than one hour (3600 s) before the expiry. -/
def verifyTokenValidity (now : Int) (s : CredState) : Bool :=
  match s.expiryDate with
  | none => false
  | some e => decide (now < e - 3600)

/-- Body of the B2C token response (the fields the code reads). -/
structure B2CResp where
  id_token : Option String
  refresh_token : Option String
  deriving DecidableEq

/-- Body of the API login response: `token` and `expiresInSeconds`
(`data.get("expiresInSeconds", 0)` — an absent duration is the integer 0). -/
structure ApiResp where
  token : Option String
  expiresInSeconds : Int
  deriving DecidableEq

/-- Observable effects of the credential operations: the two HTTP token
requests and an invocation of the persistence callback with the value it
receives. -/
inductive NetEvent where
  | b2cRequest : NetEvent
  | apiRequest : NetEvent
  | callbackInvoked : Option String → NetEvent
  deriving DecidableEq

/-- `authenticate_b2c`.  On a raised transport error (`Except.error`)
nothing is stored and `False` is returned.  On a parsed response the id
token and the (possibly absent) rotated refresh token are stored, then the
persistence callback — when one was supplied — is invoked with the stored
refresh token, and the result is the truthiness of the received id token. -/
def authB2C (cbPresent : Bool) (s : CredState) (resp : Except Unit B2CResp) :
    CredState × Bool × List NetEvent :=
  match resp with
  | .error _ => (s, false, [.b2cRequest])
  | .ok r =>
    ({ s with idToken := r.id_token, refreshToken := r.refresh_token },
      strTruthy r.id_token,
      .b2cRequest :: (if cbPresent then [.callbackInvoked r.refresh_token] else []))

/-- `authenticate_api`.  On a transport error nothing is stored.  On a
parsed response the token field is stored first; when it is falsy the
method returns `False` with the old expiry left in place, otherwise the
expiry becomes `now + expiresInSeconds`. -/
def authApi (now : Int) (s : CredState) (resp : Except Unit ApiResp) :
    CredState × Bool × List NetEvent :=
  match resp with
  | .error _ => (s, false, [.apiRequest])
  | .ok r =>
    if strTruthy r.token then
      ({ s with apiToken := r.token, expiryDate := some (now + r.expiresInSeconds) },
        true, [.apiRequest])
    else ({ s with apiToken := r.token }, false, [.apiRequest])

/-- `reauthenticate_if_needed`: nothing happens when the token is still
valid; otherwise `authenticate_b2c` and then `authenticate_api` run
unconditionally (their boolean results are ignored) and `True` is
returned.  The triple is (new state, returned bool, event trace). -/
def reauthenticateIfNeeded (cbPresent : Bool) (now : Int) (s : CredState)
    (b2cResp : Except Unit B2CResp) (apiResp : Except Unit ApiResp) :
    CredState × Bool × List NetEvent :=
  if verifyTokenValidity now s then (s, false, [])
  else
    let r1 := authB2C cbPresent s b2cResp
    let r2 := authApi now r1.1 apiResp
    (r2.1, true, r1.2.2 ++ r2.2.2)

/-- Discriminator for persistence-callback events. -/
def isCallbackEvent : NetEvent → Bool
  | .callbackInvoked _ => true
  | _ => false

/-- One credential-state mutation of the client: every public operation
(`authenticate_b2c`, `authenticate_api`, `verify_access`,
`reauthenticate_if_needed`, `get_device_states`, `discover_system`, the
realtime negotiate) either leaves the credential fields alone or performs
a sequence of these two primitive writes with some response. -/
inductive CredStep : CredState → CredState → Prop where
  | b2c (cb : Bool) (resp : Except Unit B2CResp) (s : CredState) :
      CredStep s (authB2C cb s resp).1
  | api (now : Int) (resp : Except Unit ApiResp) (s : CredState) :
      CredStep s (authApi now s resp).1

/-- Credential states reachable from a fresh client through any sequence of
operations with arbitrary success/failure responses. -/
inductive CredReachable (r0 : String) : CredState → Prop where
  | init : CredReachable r0 (initCredState r0)
  | step {s t : CredState} : CredReachable r0 s → CredStep s t → CredReachable r0 t

/-- C3 counterexample state: an expiry two hours ahead, no api token. -/
def c3State : CredState :=
  { refreshToken := some "R", idToken := none, apiToken := none,
    expiryDate := some 7200 }

/-- C4 counterexample state: a successful `authenticate_api` (token "T",
7200 s validity, at time 0) followed at time 9999 by one whose response
carries no token. -/
def c4Bad : CredState :=
  (authApi 9999 (authApi 0 (initCredState "R0") (.ok ⟨some "T", 7200⟩)).1
    (.ok ⟨none, 0⟩)).1

/-- A reachable state holding a truthy api token, for the C4 witness. -/
def c4Good : CredState :=
  (authApi 0 (initCredState "R0") (.ok ⟨some "T", 7200⟩)).1

/-- A fully-authenticated state whose token is still valid at time 0, for
the C6 witness. -/
def c6State : CredState :=
  { refreshToken := some "R", idToken := some "I", apiToken := some "T",
    expiryDate := some 10000 }

/-! ### Discovery client (api.py `discover_system`) -/

/-- A room record (the fields the code reads). -/
structure Room where
  id : Option String
  name : Option String
  deriving DecidableEq

/-- One element of the list `discover_system` returns (`δ` is the parsed
dock payload of a room). -/
structure RoomResult (δ : Type) where
  room_id : Option String
  room_name : Option String
  docks : δ

/-- Sequence a list of fallible fetches: the whole computation fails as
soon as any element fails (`asyncio.gather` with default arguments
propagates a raised exception to the awaiting caller and every other
result is discarded). -/
def mapExcept (f : α → Except ε β) : List α → Except ε (List β)
  | [] => .ok []
  | a :: as =>
    match f a with
    | .error e => .error e
    | .ok b =>
      match mapExcept f as with
      | .error e => .error e
      | .ok bs => .ok (b :: bs)

/-- `fetch_docks_for_room`: fetch one room's docks and wrap them with the
room id and name. -/
def fetchDocksForRoom (fd : Room → Except String δ) (room : Room) :
    Except String (RoomResult δ) :=
  match fd room with
  | .error e => .error e
  | .ok d => .ok ⟨room.id, room.name, d⟩

/-- `discover_system`: fetch the room list, then the docks of every room;
the result is the full list of per-room results or a propagated error.
`fetchRooms` and `fd` abstract the two HTTP fetches. -/
def discoverSystem (fetchRooms : Except String (List Room))
    (fd : Room → Except String δ) : Except String (List (RoomResult δ)) :=
  match fetchRooms with
  | .error e => .error e
  | .ok rooms => mapExcept (fetchDocksForRoom fd) rooms

/-! ### Switch entity (switch.py `RelayBin`) -/

/-- `RelayBin.snap_in_data`: the first snapin whose zigbeeId equals the
bound one (the property returns `{}`, i.e. no devices, when none does). -/
def snapInData (deviceStates : List SnapIn) (z : Option String) : Option SnapIn :=
  deviceStates.find? (fun s => s.zigbeeId == z)

/-- The Python local `state` of `RelayBin.is_on` between loop iterations:
never bound, bound to a state record (by the `for` rebinding), or bound to
`data.get("state")` (by the explicit assignment). -/
inductive LoopVar where
  | unbound : LoopVar
  | record : StateRec → LoopVar
  | value : Option String → LoopVar
  deriving DecidableEq

/-- The inner loop of `is_on` over one device's state records: every
iteration rebinds the loop variable to the record, and additionally to the
record's `data.get("state")` when the record's type is "PowerState"; there
is no `break`, so later records overwrite earlier assignments. -/
def isOnScanStates (acc : LoopVar) (sts : List StateRec) : LoopVar :=
  sts.foldl
    (fun _ st =>
      if st.type == some "PowerState" then .value (dictGet st.data "state")
      else .record st)
    acc

/-- The outer loop of `is_on` over the snapin's devices, entering the inner
loop only for devices whose type is "RelayBin". -/
def isOnScanDevices (acc : LoopVar) (ds : List Device) : LoopVar :=
  ds.foldl
    (fun a d =>
      if d.deviceType == some "RelayBin" then isOnScanStates a d.states else a)
    acc

/-- `RelayBin.is_on`: after both loops the leftover variable is compared to
"ON" (a leftover record dict compares unequal, hence false; a variable that
was never bound is a `NameError`, modelled as `Except.error`). -/
def relayIsOn (deviceStates : List SnapIn) (z : Option String) : Except Unit Bool :=
  let devices :=
    match snapInData deviceStates z with
    | some s => s.devices
    | none => []
  match isOnScanDevices .unbound devices with
  | .unbound => .error ()
  | .record _ => .ok false
  | .value v => .ok (v == some "ON")

/-- The `firmware_version` local of `RelayBin.__init__`: assigned only when
the first snapin matching the bound zigbeeId has a FirmwareState record in
its own `states` list (`none` models the local staying unassigned). -/
def relayFirmware (deviceStates : List SnapIn) (z : Option String) : Option String :=
  match deviceStates.find? (fun s => s.zigbeeId == z) with
  | none => none
  | some sn =>
    match sn.states.find? (fun st => st.type == some "FirmwareState") with
    | none => none
    | some fs => some ((dictGet fs.data "firmwareVersion").getD "unknown")

/-- `self._dock_device_number` after the constructor's device loop: the
deviceNumber of the last RelayBin-typed device of the matched snapin. -/
def relayDockDeviceNumber (sn : SnapIn) : Option Int :=
  sn.devices.foldl
    (fun a d => if d.deviceType == some "RelayBin" then d.deviceNumber else a) none

/-- `RelayBin.__init__` outcome: building the `DeviceInfo` reads the
`firmware_version` local, so the constructor raises `UnboundLocalError`
(modelled as `Except.error`) whenever that local was never assigned;
otherwise it succeeds with the firmware string and the resolved dock device
number. -/
def relayBinInit (deviceStates : List SnapIn) (z : Option String) :
    Except Unit (String × Option Int) :=
  match relayFirmware deviceStates z with
  | none => .error ()
  | some fw =>
    .ok (fw,
      match deviceStates.find? (fun s => s.zigbeeId == z) with
      | some sn => relayDockDeviceNumber sn
      | none => none)

/-- C9 snapshot: the bound device's PowerState (ON) record is followed by a
FirmwareState record, so the `is_on` loop variable ends on the latter. -/
def c9Snapshot : List SnapIn :=
  [{ zigbeeId := some "Z1"
     devices := [{ deviceNumber := some 1
                   deviceType := some "RelayBin"
                   states := [{ type := some "PowerState", data := [("state", "ON")] },
                              { type := some "FirmwareState",
                                data := [("firmwareVersion", "1.0")] }] }]
     states := [] }]

/-- C1: `apply_signalr_updates` does NOT process the entire batch: on a tree
holding two known devices (snapins Z1 and Z2, each with device 1 in state
OFF) and a batch of two updates turning both ON, only the first device is
updated — the `return` inside the update loop drops the second update, so
Z2 stays OFF.  This evaluates the embedded code at the failing input. -/
theorem apply_updates_stops_after_first_match :
    applySignalrUpdates [powerSnap "Z1" "OFF", powerSnap "Z2" "OFF"]
        [powerUpdate "Z1" "ON", powerUpdate "Z2" "ON"]
      = [powerSnap "Z1" "ON", powerSnap "Z2" "OFF"] := by
  decide

/-! ### Lemmas about the dict and list scan helpers -/

theorem dictGet_append (a b : StrMap) (k : String) :
    dictGet (a ++ b) k
      = match dictGet a k with
        | some v => some v
        | none => dictGet b k := by
  induction a with
  | nil => simp [dictGet]
  | cons p rest ih =>
    obtain ⟨k0, v0⟩ := p
    by_cases h : k0 = k <;> simp [dictGet, h, ih]

theorem dictGet_map_overwrite (old new : StrMap) (k : String) :
    dictGet (old.map (fun p => (p.1, (dictGet new p.1).getD p.2))) k
      = (dictGet old k).map (fun v => (dictGet new k).getD v) := by
  induction old with
  | nil => simp [dictGet]
  | cons p rest ih =>
    obtain ⟨k0, v0⟩ := p
    by_cases h : k0 = k
    · subst h; simp [dictGet]
    · simp [dictGet, h, ih]

theorem dictGet_filter_absent (old new : StrMap) (k : String) :
    dictGet (new.filter (fun p => (dictGet old p.1).isNone)) k
      = if (dictGet old k).isNone = true then dictGet new k else none := by
  induction new with
  | nil => simp [dictGet]
  | cons p rest ih =>
    obtain ⟨k1, v1⟩ := p
    by_cases h : k1 = k
    · subst h
      by_cases h2 : (dictGet old k1).isNone = true <;>
        simp [List.filter, dictGet, h2, ih]
    · by_cases h2 : (dictGet old k1).isNone = true <;>
        simp [List.filter, dictGet, h, h2, ih]

theorem dictGet_dictUpdate (old new : StrMap) (k : String) :
    dictGet (dictUpdate old new) k
      = match dictGet new k with
        | some v => some v
        | none => dictGet old k := by
  unfold dictUpdate
  rw [dictGet_append, dictGet_map_overwrite, dictGet_filter_absent]
  cases hOld : dictGet old k <;> cases hNew : dictGet new k <;> simp [Option.getD]

theorem findLastSuchThat_eq_none (p : α → Bool) (l : List α)
    (h : ∀ x ∈ l, p x = false) : findLastSuchThat p l = none := by
  induction l with
  | nil => rfl
  | cons a as ih =>
    simp only [findLastSuchThat]
    rw [ih (fun x hx => h x (List.mem_cons_of_mem a hx))]
    simp [h a (List.mem_cons_self a as)]

theorem findLastSuchThat_append (p : α → Bool) (pre : List α) (sn : α) (post : List α)
    (hsn : p sn = true) (hpost : ∀ x ∈ post, p x = false) :
    findLastSuchThat p (pre ++ sn :: post) = some sn := by
  induction pre with
  | nil =>
    simp only [List.nil_append, findLastSuchThat]
    rw [findLastSuchThat_eq_none p post hpost]
    simp [hsn]
  | cons a pre ih =>
    simp only [List.cons_append, findLastSuchThat, List.append_eq]
    rw [ih]

theorem updateLastSuchThat_append (p : α → Bool) (f : α → α) (pre : List α) (sn : α)
    (post : List α) (hsn : p sn = true) (hpost : ∀ x ∈ post, p x = false) :
    updateLastSuchThat p f (pre ++ sn :: post) = pre ++ f sn :: post := by
  induction pre with
  | nil =>
    have hp : post.any p = false := by
      rw [List.any_eq_false]
      intro x hx
      simp [hpost x hx]
    simp [updateLastSuchThat, hp, hsn]
  | cons a pre ih =>
    have hany : (pre ++ sn :: post).any p = true := by
      rw [List.any_eq_true]
      exact ⟨sn, by simp, hsn⟩
    simp [updateLastSuchThat, hany, ih]

theorem updateFirstSuchThat_append (p : α → Bool) (f : α → α) (pre : List α) (d : α)
    (post : List α) (hd : p d = true) (hpre : ∀ x ∈ pre, p x = false) :
    updateFirstSuchThat p f (pre ++ d :: post) = pre ++ f d :: post := by
  induction pre with
  | nil => simp [updateFirstSuchThat, hd]
  | cons a pre ih =>
    simp [updateFirstSuchThat, hpre a (by simp),
      ih (fun x hx => hpre x (by simp [hx]))]

theorem updateFirstSuchThat_id (p : α → Bool) (f : α → α) (l : List α)
    (h : ∀ x ∈ l, p x = false) : updateFirstSuchThat p f l = l := by
  induction l with
  | nil => rfl
  | cons a as ih =>
    simp [updateFirstSuchThat, h a (by simp), ih (fun x hx => h x (by simp [hx]))]

/-- C2: a single update whose zigbeeId names snapin `sn` (the last and only
match), whose deviceNumber names device `d` (the first match inside `sn`),
and whose payload names a state type, (a) when `d` holds a state record
`st` of that type (the first such), shallow-merges the payload data into
`st.data` — looked-up keys present in the payload take the payload's value,
keys absent from the payload keep their old value — and changes nothing
else in the tree; (b) when `d` holds no state record of that type, the
tree is returned unchanged. -/
theorem apply_single_update_shallow_merge
    (u : Update) (ds : DState) (pre post : List SnapIn) (sn : SnapIn)
    (dpre dpost : List Device) (d : Device)
    (hds : u.deviceState = some ds)
    (hz : strTruthy u.zigbeeId = true)
    (hsn : snapMatch u sn = true)
    (hpost : ∀ s ∈ post, snapMatch u s = false)
    (hdev : devMatch u d = true)
    (hdpre : ∀ x ∈ dpre, devMatch u x = false)
    (hsnd : sn.devices = dpre ++ d :: dpost) :
    (∀ spre st spost, d.states = spre ++ st :: spost →
        (∀ x ∈ spre, stMatch ds x = false) → stMatch ds st = true →
        applySignalrUpdates (pre ++ sn :: post) [u]
          = pre ++ { sn with devices := dpre ++
              { d with states := spre ++
                  { st with data := dictUpdate st.data ds.data } :: spost } :: dpost }
              :: post
        ∧ ∀ k, dictGet (dictUpdate st.data ds.data) k
            = match dictGet ds.data k with
              | some v => some v
              | none => dictGet st.data k)
    ∧ ((∀ x ∈ d.states, stMatch ds x = false) →
        applySignalrUpdates (pre ++ sn :: post) [u] = pre ++ sn :: post) := by
  have hfind : findLastSuchThat (snapMatch u) (pre ++ sn :: post) = some sn :=
    findLastSuchThat_append _ pre sn post hsn hpost
  have hany : sn.devices.any (devMatch u) = true := by
    rw [hsnd, List.any_eq_true]
    exact ⟨d, by simp, hdev⟩
  have happly : applySignalrUpdates (pre ++ sn :: post) [u]
      = updateLastSuchThat (snapMatch u) (mergeSnap u ds) (pre ++ sn :: post) := by
    simp only [applySignalrUpdates, hds, hz, hfind, hany]
    simp
  have hlast : updateLastSuchThat (snapMatch u) (mergeSnap u ds) (pre ++ sn :: post)
      = pre ++ mergeSnap u ds sn :: post :=
    updateLastSuchThat_append _ _ pre sn post hsn hpost
  constructor
  · intro spre st spost hstates hspre hst
    constructor
    · rw [happly, hlast]
      have hmd : mergeDevice ds d
          = { d with states := spre ++ mergeState ds st :: spost } := by
        unfold mergeDevice
        rw [hstates, updateFirstSuchThat_append _ _ spre st spost hst hspre]
      have hms : mergeSnap u ds sn
          = { sn with devices := dpre ++
              { d with states := spre ++ mergeState ds st :: spost } :: dpost } := by
        unfold mergeSnap
        rw [hsnd, updateFirstSuchThat_append _ _ dpre d dpost hdev hdpre, hmd]
      rw [hms]
      rfl
    · intro k
      exact dictGet_dictUpdate st.data ds.data k
  · intro hnone
    rw [happly, hlast]
    have hmd : mergeDevice ds d = d := by
      unfold mergeDevice
      rw [updateFirstSuchThat_id _ _ _ hnone]
    have hms : mergeSnap u ds sn = sn := by
      unfold mergeSnap
      rw [hsnd, updateFirstSuchThat_append _ _ dpre d dpost hdev hdpre, hmd, ← hsnd]
    rw [hms]

/-- C2 witness: the merge theorem applied to the concrete one-snapin tree;
the PowerState data's `state` key becomes "ON" while the unrelated
`brightness` key is preserved. -/
theorem apply_single_update_shallow_merge_witness :
    applySignalrUpdates ([] ++ c2Snap :: []) [c2Update]
      = [] ++ { c2Snap with devices := [] ++
          { c2Dev with states := [] ++
              { c2St with data := dictUpdate c2St.data c2DS.data } :: [] } :: [] } :: []
    ∧ ∀ k, dictGet (dictUpdate c2St.data c2DS.data) k
        = match dictGet c2DS.data k with
          | some v => some v
          | none => dictGet c2St.data k :=
  (apply_single_update_shallow_merge c2Update c2DS [] [] c2Snap [] [] c2Dev
      rfl (by decide) (by decide) (by simp) (by decide) (by simp) rfl).1
    [] c2St [] rfl (by simp) (by decide)

/-- C3 (amended): `verify_token_validity` is true iff an expiry timestamp
exists and now is strictly more than one hour before it; the api token is
not examined, and at exactly one hour before expiry the result is already
false. -/
theorem token_validity_iff_expiry_margin (now : Int) (s : CredState) :
    verifyTokenValidity now s = true ↔ ∃ e, s.expiryDate = some e ∧ now < e - 3600 := by
  cases h : s.expiryDate with
  | none => simp [verifyTokenValidity, h]
  | some e => simp [verifyTokenValidity, h]

/-- C3 counterexample: a credential state with an expiry two hours ahead
and NO api token stored still gets `verify_token_validity` = true at time
0, refuting "true iff an API token and an expiry timestamp exist and now is
more than one hour before expiry". -/
theorem token_validity_ignores_api_token_cex :
    verifyTokenValidity 0 c3State = true ∧ c3State.apiToken = none :=
  ⟨rfl, rfl⟩

/-- C4 counterexample: after a successful `authenticate_api` followed by
one whose parsed response carries no token, the client reaches a state with
the api token cleared but the stale expiry still stored — the fields are
not always set together. -/
theorem token_expiry_not_always_paired_cex :
    CredReachable "R0" c4Bad ∧ c4Bad.apiToken = none ∧ c4Bad.expiryDate = some 7200 :=
  ⟨.step (.step .init (.api 0 (.ok ⟨some "T", 7200⟩) _)) (.api 9999 (.ok ⟨none, 0⟩) _),
    by decide, by decide⟩

/-- C4 (amended): in every reachable credential state a set (non-empty) api
token implies the expiry timestamp is set; the converse direction of the
claimed "always set together" fails (see the counterexample). -/
theorem api_token_implies_expiry_reachable (r0 : String) (s : CredState)
    (h : CredReachable r0 s) (ht : strTruthy s.apiToken = true) :
    s.expiryDate ≠ none := by
  induction h with
  | init => simp [initCredState, strTruthy] at ht
  | step hr hs ih =>
    cases hs with
    | b2c cb resp s1 =>
      cases resp with
      | error e => exact ih ht
      | ok r =>
        simp only [authB2C] at ht ⊢
        exact ih ht
    | api now resp s1 =>
      cases resp with
      | error e => exact ih ht
      | ok r =>
        by_cases htk : strTruthy r.token = true
        · simp [authApi, htk]
        · simp only [authApi] at ht
          rw [if_neg htk] at ht
          exact absurd ht htk

/-- C4 witness: the amended invariant applied to a concrete reachable state
holding the token "T". -/
theorem api_token_implies_expiry_reachable_witness : c4Good.expiryDate ≠ none :=
  api_token_implies_expiry_reachable "R0" c4Good
    (.step .init (.api 0 (.ok ⟨some "T", 7200⟩) _)) (by decide)

/-- C5: when the stored token is not valid and the b2c exchange parses a
response whose rotated refresh token is `R`, the reauthentication chain's
event trace is exactly [b2c request, callback(some R), api request]: the
supplied persistence callback runs exactly once, with exactly the rotated
token, and strictly before the api-token exchange is attempted; the second
conjunct isolates that the only callback event of the whole trace is that
one. -/
theorem refresh_rotation_callback_once_before_api
    (now : Int) (s : CredState) (r : B2CResp) (R : String)
    (apiResp : Except Unit ApiResp)
    (hv : verifyTokenValidity now s = false)
    (hr : r.refresh_token = some R) :
    (reauthenticateIfNeeded true now s (.ok r) apiResp).2.2
      = [.b2cRequest, .callbackInvoked (some R), .apiRequest]
    ∧ ((reauthenticateIfNeeded true now s (.ok r) apiResp).2.2).filter isCallbackEvent
      = [.callbackInvoked (some R)] := by
  have htr : (reauthenticateIfNeeded true now s (.ok r) apiResp).2.2
      = [.b2cRequest, .callbackInvoked (some R), .apiRequest] := by
    simp only [reauthenticateIfNeeded, hv]
    cases apiResp with
    | error e => simp [authB2C, authApi, hr]
    | ok ar =>
      by_cases h : strTruthy ar.token = true <;> simp [authB2C, authApi, hr, h]
  refine ⟨htr, ?_⟩
  rw [htr]
  rfl

/-- C5 witness: the chain run from a fresh client (no expiry, hence not
valid) with a b2c response rotating the refresh token to "NEWRT". -/
theorem refresh_rotation_callback_once_before_api_witness :
    (reauthenticateIfNeeded true 0 (initCredState "R0")
        (.ok ⟨some "I", some "NEWRT"⟩) (.ok ⟨some "T", 7200⟩)).2.2
      = [.b2cRequest, .callbackInvoked (some "NEWRT"), .apiRequest]
    ∧ ((reauthenticateIfNeeded true 0 (initCredState "R0")
        (.ok ⟨some "I", some "NEWRT"⟩) (.ok ⟨some "T", 7200⟩)).2.2).filter isCallbackEvent
      = [.callbackInvoked (some "NEWRT")] :=
  refresh_rotation_callback_once_before_api 0 (initCredState "R0")
    ⟨some "I", some "NEWRT"⟩ "NEWRT" (.ok ⟨some "T", 7200⟩) rfl rfl

/-- C6: when the stored token is still valid, `reauthenticate_if_needed`
returns `False`, makes no network call (empty event trace), and leaves
every credential field unchanged. -/
theorem reauth_noop_when_valid (cb : Bool) (now : Int) (s : CredState)
    (b2cResp : Except Unit B2CResp) (apiResp : Except Unit ApiResp)
    (hv : verifyTokenValidity now s = true) :
    reauthenticateIfNeeded cb now s b2cResp apiResp = (s, false, []) := by
  simp [reauthenticateIfNeeded, hv]

/-- C6 witness: a fully-authenticated state whose expiry is far enough in
the future, run against responses that would fail — nothing is touched. -/
theorem reauth_noop_when_valid_witness :
    verifyTokenValidity 0 c6State = true
    ∧ reauthenticateIfNeeded true 0 c6State (.error ()) (.error ())
        = (c6State, false, []) :=
  ⟨by decide, reauth_noop_when_valid true 0 c6State (.error ()) (.error ()) (by decide)⟩

/-- C7: an update whose zigbeeId matches no snapin of the tree, or whose
deviceNumber matches no device of the snapin the index resolves, is skipped
silently: it contributes nothing (processing simply continues with the rest
of the batch — `continue`), and in particular as a singleton batch it
leaves the tree exactly unchanged; the embedded function is total, so no
error is raised on this path. -/
theorem apply_update_unknown_target_skipped
    (tree : List SnapIn) (u : Update) (rest : List Update)
    (h : (∀ s ∈ tree, snapMatch u s = false)
        ∨ ∃ sn, findLastSuchThat (snapMatch u) tree = some sn
            ∧ ∀ d ∈ sn.devices, devMatch u d = false) :
    applySignalrUpdates tree (u :: rest) = applySignalrUpdates tree rest
    ∧ applySignalrUpdates tree [u] = tree := by
  have key : ∀ rest2, applySignalrUpdates tree (u :: rest2)
      = applySignalrUpdates tree rest2 := by
    intro rest2
    cases hds : u.deviceState with
    | none => simp [applySignalrUpdates, hds]
    | some ds =>
      cases hz : strTruthy u.zigbeeId with
      | false => simp [applySignalrUpdates, hds, hz]
      | true =>
        rcases h with hnone | ⟨sn, hfind, hdev⟩
        · have hf : findLastSuchThat (snapMatch u) tree = none :=
            findLastSuchThat_eq_none _ _ hnone
          simp [applySignalrUpdates, hds, hz, hf]
        · have hany : sn.devices.any (devMatch u) = false := by
            rw [List.any_eq_false]
            intro d hd
            simp [hdev d hd]
          simp [applySignalrUpdates, hds, hz, hfind, hany]
  exact ⟨key rest, by rw [key []]; rfl⟩

/-- C7 witness: an update for the unknown zigbee id "ZX" applied to a tree
that only knows "Z1" leaves the tree unchanged. -/
theorem apply_update_unknown_target_skipped_witness :
    applySignalrUpdates [powerSnap "Z1" "OFF"] [powerUpdate "ZX" "ON"]
      = [powerSnap "Z1" "OFF"] :=
  (apply_update_unknown_target_skipped [powerSnap "Z1" "OFF"] (powerUpdate "ZX" "ON")
    [] (Or.inl (by decide))).2

/-- C8: the discovery fan-out is all-or-nothing: if the dock fetch of any
room in the fetched room list fails, the whole `discover_system` call
propagates an error; and whenever it returns a result list at all, that
list covers every room (same length, every room's fetch succeeded) — no
partial topology is ever returned. -/
theorem discover_system_all_or_nothing (δ : Type) (rooms : List Room)
    (fd : Room → Except String δ) :
    ((∃ r ∈ rooms, ∃ e, fd r = .error e) →
        ∃ e2, discoverSystem (.ok rooms) fd = .error e2)
    ∧ (∀ res, discoverSystem (.ok rooms) fd = .ok res →
        res.length = rooms.length ∧ ∀ r ∈ rooms, ∃ d, fd r = .ok d) := by
  show ((∃ r ∈ rooms, ∃ e, fd r = .error e) →
        ∃ e2, mapExcept (fetchDocksForRoom fd) rooms = .error e2)
    ∧ (∀ res, mapExcept (fetchDocksForRoom fd) rooms = .ok res →
        res.length = rooms.length ∧ ∀ r ∈ rooms, ∃ d, fd r = .ok d)
  induction rooms with
  | nil =>
    constructor
    · rintro ⟨r, hr, _⟩
      cases hr
    · intro res hres
      simp only [mapExcept] at hres
      cases hres
      exact ⟨rfl, fun r hr => absurd hr (List.not_mem_nil r)⟩
  | cons a as ih =>
    constructor
    · rintro ⟨r, hr, e, he⟩
      rcases List.mem_cons.mp hr with h | h
      · subst h
        exact ⟨e, by simp [mapExcept, fetchDocksForRoom, he]⟩
      · rcases ih.1 ⟨r, h, e, he⟩ with ⟨e2, he2⟩
        cases hfa : fd a with
        | error ea => exact ⟨ea, by simp [mapExcept, fetchDocksForRoom, hfa]⟩
        | ok da => exact ⟨e2, by simp [mapExcept, fetchDocksForRoom, hfa, he2]⟩
    · intro res hres
      cases hfa : fd a with
      | error ea => simp [mapExcept, fetchDocksForRoom, hfa] at hres
      | ok da =>
        cases hrest : mapExcept (fetchDocksForRoom fd) as with
        | error e => simp [mapExcept, fetchDocksForRoom, hfa, hrest] at hres
        | ok bs =>
          have hih := ih.2 bs hrest
          simp only [mapExcept, fetchDocksForRoom, hfa, hrest] at hres
          cases hres
          refine ⟨by simp [hih.1], ?_⟩
          intro r hr
          rcases List.mem_cons.mp hr with h | h
          · exact ⟨da, by rw [h]; exact hfa⟩
          · exact hih.2 r h

/-- C8 witness: a single room whose dock fetch raises makes the whole
discovery call fail. -/
theorem discover_system_all_or_nothing_witness :
    ∃ e2, discoverSystem (.ok [(⟨some "r1", some "kitchen"⟩ : Room)])
        (fun _ => (.error "dock fetch failed" : Except String Nat)) = .error e2 :=
  (discover_system_all_or_nothing Nat [⟨some "r1", some "kitchen"⟩]
      (fun _ => .error "dock fetch failed")).1
    ⟨⟨some "r1", some "kitchen"⟩, by simp, "dock fetch failed", rfl⟩

/-- C9: the snapshot `c9Snapshot` binds zigbee id "Z1" to a RelayBin device
whose PowerState record carries state "ON" (second conjunct), yet `is_on`
evaluates to false (first conjunct): the loop variable is overwritten by
the FirmwareState record that follows the PowerState record, refuting
"returns true iff the bound device's PowerState entry has state = ON". -/
theorem is_on_false_despite_power_on :
    relayIsOn c9Snapshot (some "Z1") = .ok false
    ∧ c9Snapshot.any (fun sn => sn.zigbeeId == some "Z1"
        && sn.devices.any (fun d => d.deviceType == some "RelayBin"
          && d.states.any (fun st => st.type == some "PowerState"
            && dictGet st.data "state" == some "ON"))) = true :=
  ⟨rfl, by decide⟩

/-- C10: `RelayBin.__init__` succeeds (no raise) exactly when the first
snapin matching the dock's zigbeeId exists and carries a FirmwareState
record; in every other snapshot the `firmware_version` local is read while
never assigned and the constructor raises instead of falling back to any
default. -/
theorem relaybin_init_ok_iff_firmware_state (deviceStates : List SnapIn)
    (z : Option String) :
    (∃ x, relayBinInit deviceStates z = .ok x)
      ↔ ∃ sn, deviceStates.find? (fun s => s.zigbeeId == z) = some sn
          ∧ sn.states.any (fun st => st.type == some "FirmwareState") = true := by
  unfold relayBinInit relayFirmware
  cases hf : deviceStates.find? (fun s => s.zigbeeId == z) with
  | none =>
    simp
  | some sn =>
    cases hs : sn.states.find? (fun st => st.type == some "FirmwareState") with
    | none =>
      simp [hs]
      intro x hx
      have h2 := List.find?_eq_none.mp hs x hx
      simpa using h2
    | some fs =>
      have hmem : fs ∈ sn.states := List.mem_of_find?_eq_some hs
      have hp := List.find?_some hs
      simp [hs]
      exact ⟨fs, hmem, by simpa using hp⟩
